import Mathlib

/-!
Verification of the identifier-management layer ("label table") of the vsag
ANN index, as described by the specification and exercised by
`src/impl/label_table_test.cpp`.

The implementation file `label_table.h` is not part of the excerpted sources;
every definition below is therefore modelled from the specification's words,
with the concrete behavior anchored to the observable requirements of the
test suite (`label_table_test.cpp`), which is part of the repository.
-/

set_option autoImplicit false

namespace VsagSpec

/-- Modelled from the spec: error taxonomy (section 7) of the missing
`label_table.h`.  `NotFound` — id or label absent, or label resolves only to
a tombstoned id under default lookup; `DeserializationError` — persisted
stream malformed. -/
inductive VsagError where
  | NotFound : VsagError
  | DeserializationError : VsagError
deriving DecidableEq

/-- Result of a fallible label-table operation: either a value or a raised
`VsagError` (the C++ code throws `VsagException`; tests assert on the error
condition directly). -/
inductive LRes (α : Type) where
  | ok : α → LRes α
  | err : VsagError → LRes α
deriving DecidableEq

/-- Modelled from the spec: the `LabelTable` data model (section 3) of the
missing `label_table.h`.
`labels` is the identity store (internal id → external label, `none` for a
slot never filled; its length is the capacity); `reverse_index` is the
label → id map used when `use_reverse_map` is true, kept newest-entry-first
so that lookup of the first matching entry realises the spec's
"adds/overwrites" semantics of `Insert`; `removed` is the tombstone set;
`duplicate_groups` maps a primary id to its registered duplicate ids;
`total_count` is the occupancy counter reported by `GetTotalCount`. -/
structure LabelTable where
  labels : List (Option Nat)
  reverse_index : List (Nat × Nat)
  removed : List Nat
  duplicate_groups : List (Nat × List Nat)
  use_reverse_map : Bool
  compress_duplicate_data : Bool
  total_count : Nat
deriving DecidableEq

/-- Modelled from the spec: construction with an allocator and two boolean
switches (reverse-map enabled, duplicate-compression enabled); all stores
start empty.  The allocator is irrelevant to functional behavior and is not
modelled. -/
def LabelTable.new (use_rm compress : Bool) : LabelTable :=
  { labels := [], reverse_index := [], removed := [], duplicate_groups := [],
    use_reverse_map := use_rm, compress_duplicate_data := compress,
    total_count := 0 }

/-- The slot of the identity store at an internal id: `none` both for a
never-filled slot within capacity and for an id beyond capacity. -/
def slotAt : List (Option Nat) → Nat → Option Nat
  | [], _ => none
  | x :: _, 0 => x
  | _ :: xs, n + 1 => slotAt xs n

/-- Store a label at position `id` of the identity store, growing the store
with empty slots as needed (the test "Insert at large id" inserts at id 1000
on a fresh table with no prior `Resize` and requires the insert to take
effect). -/
def storeAt : List (Option Nat) → Nat → Nat → List (Option Nat)
  | [], 0, l => [some l]
  | [], n + 1, l => none :: storeAt [] n l
  | _ :: xs, 0, l => some l :: xs
  | x :: xs, n + 1, l => x :: storeAt xs n l

/-- Grow the identity store to length at least `n`, padding with empty
slots; never shrinks (the spec declares shrinking unsupported). -/
def growTo : List (Option Nat) → Nat → List (Option Nat)
  | xs, 0 => xs
  | [], n + 1 => none :: growTo [] n
  | x :: xs, n + 1 => x :: growTo xs n

/-- First entry of the reverse index whose label component matches;
entries are kept newest-first, so this is the most recently written
binding for the label. -/
def lookupRev : List (Nat × Nat) → Nat → Option Nat
  | [], _ => none
  | (l, i) :: rest, lab => if l = lab then some i else lookupRev rest lab

/-- Linear scan of the identity store: the first (smallest) internal id
whose slot holds the given label. -/
def firstScan : List (Option Nat) → Nat → Option Nat
  | [], _ => none
  | x :: xs, lab => if x = some lab then some 0 else (firstScan xs lab).map (· + 1)

/-- Modelled from the spec: `Insert(id, label)` of the missing
`label_table.h` stores `label` at position `id` (growing the store on
demand, as required by the test "Insert at large id"), adds/overwrites the
reverse-index binding when reverse-map mode is active, and keeps
`total_count` one past the largest inserted id (on the dense in-order
insertions exercised by the tests this coincides with the spec's
increment-per-newly-filled-slot description, and it is the accounting under
which the spec's `GetLabelById` domain description and its literal sparse
example 5 agree). -/
def LabelTable.Insert (t : LabelTable) (id label : Nat) : LabelTable :=
  { t with
    labels := storeAt t.labels id label,
    reverse_index :=
      if t.use_reverse_map then (label, id) :: t.reverse_index else t.reverse_index,
    total_count := max t.total_count (id + 1) }

/-- Modelled from the spec: `GetLabelById(id)` fails with `NotFound` if `id`
is outside `[0, total_count)` or its slot was never filled; otherwise
returns the stored label. -/
def LabelTable.GetLabelById (t : LabelTable) (id : Nat) : LRes Nat :=
  if id < t.total_count then
    match slotAt t.labels id with
    | some l => .ok l
    | none => .err .NotFound
  else .err .NotFound

/-- Resolution step of a reverse lookup, before the tombstone check: the
reverse index when reverse-map mode is active, a linear scan of the
identity store otherwise. -/
def LabelTable.resolve (t : LabelTable) (label : Nat) : Option Nat :=
  if t.use_reverse_map then lookupRev t.reverse_index label
  else firstScan t.labels label

/-- Modelled from the spec: `GetIdByLabel(label, allow_removed)` resolves
the label (reverse index or linear scan according to the mode), fails with
`NotFound` when the label is absent, and, unless `allow_removed` is true,
also fails with `NotFound` when the resolved id is tombstoned. -/
def LabelTable.GetIdByLabel (t : LabelTable) (label : Nat) (allow : Bool) : LRes Nat :=
  match t.resolve label with
  | none => .err .NotFound
  | some id =>
    if allow = false ∧ id ∈ t.removed then .err .NotFound else .ok id

/-- Modelled from the spec: `CheckLabel(label)` is true iff the label
resolves to a non-tombstoned id; false on absence or tombstoning; never
fails. -/
def LabelTable.CheckLabel (t : LabelTable) (label : Nat) : Bool :=
  match t.GetIdByLabel label false with
  | .ok _ => true
  | .err _ => false

/-- Modelled from the spec: `MarkRemove(label)` resolves the label to its
primary internal id ignoring existing tombstone state, and adds that id to
the tombstone set; fails with `NotFound` when the label does not resolve. -/
def LabelTable.MarkRemove (t : LabelTable) (label : Nat) : LRes LabelTable :=
  match t.GetIdByLabel label true with
  | .ok id =>
    .ok { t with removed := if id ∈ t.removed then t.removed else id :: t.removed }
  | .err e => .err e

/-- Modelled from the spec: `IsRemoved(id)` is tombstone-set membership; it
does not validate that `id` was ever inserted. -/
def LabelTable.IsRemoved (t : LabelTable) (id : Nat) : Bool :=
  decide (id ∈ t.removed)

/-- Modelled from the spec: `SetImmutable()` — one-way transition that
disables `use_reverse_map` and releases the reverse-index storage. -/
def LabelTable.SetImmutable (t : LabelTable) : LabelTable :=
  { t with use_reverse_map := false, reverse_index := [] }

/-- Add a duplicate id to the group of a primary id in the registry:
accumulate into the existing group (as a set) when the primary already has
one, start a fresh singleton group otherwise. -/
def addDup : List (Nat × List Nat) → Nat → Nat → List (Nat × List Nat)
  | [], p, d => [(p, [d])]
  | (q, g) :: rest, p, d =>
    if q = p then (q, if d ∈ g then g else d :: g) :: rest
    else (q, g) :: addDup rest p d

/-- First group of the duplicate registry keyed by the given id. -/
def lookupGroup : List (Nat × List Nat) → Nat → Option (List Nat)
  | [], _ => none
  | (q, g) :: rest, p => if q = p then some g else lookupGroup rest p

/-- Modelled from the spec: `SetDuplicateId(primary_id, duplicate_id)`
registers the duplicate under the primary; repeated calls with one primary
accumulate into one growing set, different primaries keep independent
groups. -/
def LabelTable.SetDuplicateId (t : LabelTable) (p d : Nat) : LabelTable :=
  { t with duplicate_groups := addDup t.duplicate_groups p d }

/-- Modelled from the spec: `GetDuplicateId(id)` returns the registered
duplicate set for `id`, the empty set (not an error) when none was
registered. -/
def LabelTable.GetDuplicateId (t : LabelTable) (id : Nat) : List Nat :=
  (lookupGroup t.duplicate_groups id).getD []

/-- Modelled from the spec: `Resize(new_capacity)` grows the identity store
to accommodate internal ids up to `new_capacity - 1`, preserving all
existing labels, tombstones, and duplicate groups (shrinking is
unsupported and is ignored). -/
def LabelTable.Resize (t : LabelTable) (n : Nat) : LabelTable :=
  { t with labels := growTo t.labels n }

/-- Modelled from the spec: `GetTotalCount()` reports the occupancy
counter, independent of tombstone state. -/
def LabelTable.GetTotalCount (t : LabelTable) : Nat :=
  t.total_count

/-- Encoding of one identity-store slot in the serialized stream: a
presence flag followed by the label value. -/
def encodeSlot : Option Nat → List Nat
  | none => [0, 0]
  | some l => [1, l]

/-- Encoding of the identity store, slot by slot. -/
def encodeSlots : List (Option Nat) → List Nat
  | [] => []
  | x :: xs => encodeSlot x ++ encodeSlots xs

/-- Encoding of the duplicate registry: per group, the primary id, the
member count, then the members. -/
def encodeGroups : List (Nat × List Nat) → List Nat
  | [] => []
  | (p, g) :: rest => p :: g.length :: (g ++ encodeGroups rest)

/-- Modelled from the spec: `Serialize(writer)` writes, in a fixed
version-implicit order, the total count, the identity array, the tombstone
set, and the duplicate registry.  The abstract byte stream is modelled as a
list of naturals. -/
def LabelTable.Serialize (t : LabelTable) : List Nat :=
  t.total_count :: t.labels.length ::
    (encodeSlots t.labels ++
      t.removed.length ::
        (t.removed ++ t.duplicate_groups.length :: encodeGroups t.duplicate_groups))

/-- Decoder for `n` identity-store slots; returns the slots and the
remaining stream, or `none` on a malformed stream. -/
def decodeSlots : Nat → List Nat → Option (List (Option Nat) × List Nat)
  | 0, s => some ([], s)
  | n + 1, f :: l :: s =>
    (decodeSlots n s).map (fun p => ((if f = 0 then none else some l) :: p.1, p.2))
  | _ + 1, _ => none

/-- Decoder for a length-`n` list of naturals; returns the list and the
remaining stream, or `none` on a truncated stream. -/
def decodeNats : Nat → List Nat → Option (List Nat × List Nat)
  | 0, s => some ([], s)
  | n + 1, x :: s => (decodeNats n s).map (fun p => (x :: p.1, p.2))
  | _ + 1, [] => none

/-- Decoder for `n` duplicate-registry groups. -/
def decodeGroups : Nat → List Nat → Option (List (Nat × List Nat) × List Nat)
  | 0, s => some ([], s)
  | n + 1, p :: k :: s =>
    match decodeNats k s with
    | none => none
    | some (g, s1) => (decodeGroups n s1).map (fun q => ((p, g) :: q.1, q.2))
  | _ + 1, _ => none

/-- Rebuild a reverse index from the identity store, scanning internal ids
upward from `i`. -/
def rebuildRevFrom : List (Option Nat) → Nat → List (Nat × Nat)
  | [], _ => []
  | none :: xs, i => rebuildRevFrom xs (i + 1)
  | some l :: xs, i => (l, i) :: rebuildRevFrom xs (i + 1)

/-- Modelled from the spec: `Deserialize(reader)` reconstructs a label
table from a stream written by `Serialize` — identity array, tombstones,
duplicate groups and total count — rebuilding the reverse index from the
identity store when the destination table has reverse-map mode enabled;
malformed or truncated streams fail with `DeserializationError`. -/
def LabelTable.Deserialize (t : LabelTable) (s : List Nat) : LRes LabelTable :=
  match s with
  | total :: cap :: rest =>
    match decodeSlots cap rest with
    | none => .err .DeserializationError
    | some (labels, rest1) =>
      match rest1 with
      | rcount :: rest2 =>
        match decodeNats rcount rest2 with
        | none => .err .DeserializationError
        | some (removed, rest3) =>
          match rest3 with
          | gcount :: rest4 =>
            match decodeGroups gcount rest4 with
            | none => .err .DeserializationError
            | some (groups, _) =>
              .ok { labels := labels,
                    reverse_index :=
                      if t.use_reverse_map then rebuildRevFrom labels 0 else [],
                    removed := removed,
                    duplicate_groups := groups,
                    use_reverse_map := t.use_reverse_map,
                    compress_duplicate_data := t.compress_duplicate_data,
                    total_count := total }
          | [] => .err .DeserializationError
      | [] => .err .DeserializationError
  | _ => .err .DeserializationError

/-- The mutating operations a caller may apply to a label table (the
alphabet of the round-trip property). -/
inductive Op where
  | insert : Nat → Nat → Op
  | markRemove : Nat → Op
  | setDuplicateId : Nat → Nat → Op
  | resize : Nat → Op

/-- Apply one operation; a failing `MarkRemove` rejects before mutating, so
the table is left unchanged (spec section 7). -/
def applyOp (t : LabelTable) : Op → LabelTable
  | .insert id l => t.Insert id l
  | .markRemove l =>
    match t.MarkRemove l with
    | .ok t1 => t1
    | .err _ => t
  | .setDuplicateId p d => t.SetDuplicateId p d
  | .resize n => t.Resize n

/-- Run a sequence of operations on a freshly constructed table with the
given flags. -/
def run (rm cd : Bool) (ops : List Op) : LabelTable :=
  ops.foldl applyOp (LabelTable.new rm cd)

/-- Register a list of duplicate ids under one primary, in order. -/
def registerAll (t : LabelTable) (p : Nat) (ds : List Nat) : LabelTable :=
  ds.foldl (fun s d => s.SetDuplicateId p d) t

/-- The table reconstructed by `Deserialize` from the serialization of `t`
into a fresh table with flags `rm`, `cd`. -/
def reconstruct (rm cd : Bool) (t : LabelTable) : LabelTable :=
  { labels := t.labels,
    reverse_index := if rm then rebuildRevFrom t.labels 0 else [],
    removed := t.removed,
    duplicate_groups := t.duplicate_groups,
    use_reverse_map := rm,
    compress_duplicate_data := cd,
    total_count := t.total_count }

/-- Table of the test "LabelTable Basic Operations": three distinct labels
inserted densely with the reverse map enabled. -/
def tBasic : LabelTable :=
  run true false [.insert 0 100, .insert 1 200, .insert 2 300]

/-- Table of the test "LabelTable Without Reverse Map": three distinct
labels inserted densely with the reverse map disabled. -/
def tNoRev : LabelTable :=
  run false false [.insert 0 100, .insert 1 200, .insert 2 300]

/-- A table holding one label at two internal ids: the duplicate-insertion
scenario of the duplicate-registry tests. -/
def tDup : LabelTable :=
  run true false [.insert 0 100, .insert 1 100]

theorem slotAt_nil (i : Nat) : slotAt [] i = none := by
  cases i <;> rfl

theorem storeAt_slotAt_self (xs : List (Option Nat)) (i l : Nat) :
    slotAt (storeAt xs i l) i = some l := by
  induction i generalizing xs with
  | zero => cases xs <;> rfl
  | succ n ih =>
    cases xs with
    | nil => exact ih []
    | cons x rest => exact ih rest

theorem storeAt_length (xs : List (Option Nat)) (i l : Nat) :
    (storeAt xs i l).length = max (i + 1) xs.length := by
  induction i generalizing xs with
  | zero => cases xs <;> simp [storeAt]
  | succ n ih =>
    cases xs with
    | nil =>
      show (none :: storeAt [] n l).length = max (n + 2) 0
      simp [ih]
    | cons x rest =>
      show (x :: storeAt rest n l).length = max (n + 2) (rest.length + 1)
      simp [ih]
      omega

theorem growTo_slotAt (xs : List (Option Nat)) (n i : Nat) :
    slotAt (growTo xs n) i = slotAt xs i := by
  induction n generalizing xs i with
  | zero => simp [growTo]
  | succ m ih =>
    cases xs with
    | nil =>
      cases i with
      | zero => rfl
      | succ j => simpa [slotAt_nil] using ih [] j
    | cons x rest =>
      cases i with
      | zero => rfl
      | succ j => exact ih rest j

theorem growTo_length (xs : List (Option Nat)) (n : Nat) :
    (growTo xs n).length = max n xs.length := by
  induction n generalizing xs with
  | zero => simp [growTo]
  | succ m ih =>
    cases xs with
    | nil =>
      show (none :: growTo [] m).length = max (m + 1) 0
      simp [ih]
    | cons x rest =>
      show (x :: growTo rest m).length = max (m + 1) (rest.length + 1)
      simp [ih]
      omega

theorem slotAt_some_lt (xs : List (Option Nat)) (i l : Nat)
    (h : slotAt xs i = some l) : i < xs.length := by
  induction xs generalizing i with
  | nil => rw [slotAt_nil] at h; exact absurd h (by simp)
  | cons x rest ih =>
    cases i with
    | zero => simp
    | succ j => exact Nat.succ_lt_succ (ih j h)

theorem firstScan_some_iff (xs : List (Option Nat)) (lab i : Nat) :
    firstScan xs lab = some i ↔
      (slotAt xs i = some lab ∧ ∀ j, j < i → slotAt xs j ≠ some lab) := by
  induction xs generalizing i with
  | nil => simp [firstScan, slotAt_nil]
  | cons x rest ih =>
    by_cases hx : x = some lab
    · constructor
      · intro h
        simp [firstScan, hx] at h
        subst h
        exact ⟨hx, by omega⟩
      · intro hp
        cases i with
        | zero => simp [firstScan, hx]
        | succ j =>
          exact absurd (show slotAt (x :: rest) 0 = some lab from hx)
            (hp.2 0 (Nat.succ_pos j))
    · cases i with
      | zero =>
        simp only [firstScan, if_neg hx]
        constructor
        · intro h
          rcases Option.map_eq_some'.mp h with ⟨k, _, hk2⟩
          omega
        · intro hp
          exact absurd hp.1 hx
      | succ j =>
        simp only [firstScan, if_neg hx]
        constructor
        · intro h
          rcases Option.map_eq_some'.mp h with ⟨k, hk1, hk2⟩
          have hkj : k = j := by omega
          rw [hkj] at hk1
          rcases (ih j).mp hk1 with ⟨h1, h2⟩
          refine ⟨h1, ?_⟩
          intro m hm
          cases m with
          | zero => exact fun hc => hx hc
          | succ m1 => exact h2 m1 (by omega)
        · intro hp
          have hrest : firstScan rest lab = some j := by
            refine (ih j).mpr ⟨hp.1, ?_⟩
            intro m hm
            exact hp.2 (m + 1) (by omega)
          simp [hrest]

theorem firstScan_none_of_absent (xs : List (Option Nat)) (lab : Nat)
    (h : ∀ j, j < xs.length → slotAt xs j ≠ some lab) :
    firstScan xs lab = none := by
  cases hf : firstScan xs lab with
  | none => rfl
  | some i =>
    rcases (firstScan_some_iff xs lab i).mp hf with ⟨h1, _⟩
    exact absurd h1 (h i (slotAt_some_lt xs i lab h1))

theorem lookupRev_mem (rs : List (Nat × Nat)) (lab i : Nat)
    (h : lookupRev rs lab = some i) : (lab, i) ∈ rs := by
  induction rs with
  | nil => exact absurd h (by simp [lookupRev])
  | cons p rest ih =>
    rcases p with ⟨l, k⟩
    simp only [lookupRev] at h
    by_cases hl : l = lab
    · subst hl
      rw [if_pos rfl] at h
      injection h with h2
      subst h2
      exact List.mem_cons_self _ _
    · rw [if_neg hl] at h
      exact List.mem_cons_of_mem _ (ih h)

theorem decodeSlots_encode (xs : List (Option Nat)) (r : List Nat) :
    decodeSlots xs.length (encodeSlots xs ++ r) = some (xs, r) := by
  induction xs with
  | nil => rfl
  | cons x rest ih =>
    cases x with
    | none =>
      show decodeSlots (rest.length + 1) (0 :: 0 :: (encodeSlots rest ++ r)) = _
      simp [decodeSlots, ih]
    | some l =>
      show decodeSlots (rest.length + 1) (1 :: l :: (encodeSlots rest ++ r)) = _
      simp [decodeSlots, ih]

theorem decodeNats_encode (xs : List Nat) (r : List Nat) :
    decodeNats xs.length (xs ++ r) = some (xs, r) := by
  induction xs with
  | nil => rfl
  | cons x rest ih =>
    show decodeNats (rest.length + 1) (x :: (rest ++ r)) = _
    simp [decodeNats, ih]

theorem decodeGroups_encode (gs : List (Nat × List Nat)) (r : List Nat) :
    decodeGroups gs.length (encodeGroups gs ++ r) = some (gs, r) := by
  induction gs with
  | nil => rfl
  | cons pg rest ih =>
    rcases pg with ⟨p, g⟩
    show decodeGroups (rest.length + 1)
      (p :: g.length :: ((g ++ encodeGroups rest) ++ r)) = _
    rw [List.append_assoc]
    simp [decodeGroups, decodeNats_encode, ih]

/-- Deserializing the serialization of any table into a fresh table with
flags `rm`, `cd` succeeds and produces exactly the reconstructed table. -/
theorem deserialize_serialize (rm cd : Bool) (t : LabelTable) :
    (LabelTable.new rm cd).Deserialize t.Serialize = .ok (reconstruct rm cd t) := by
  show LabelTable.Deserialize _ (t.total_count :: t.labels.length :: _) = _
  simp only [LabelTable.Deserialize]
  rw [decodeSlots_encode]
  simp only []
  rw [decodeNats_encode]
  simp only []
  rw [show encodeGroups t.duplicate_groups =
        encodeGroups t.duplicate_groups ++ [] from (List.append_nil _).symm,
      decodeGroups_encode]
  rfl

theorem lookupGroup_addDup_self (gs : List (Nat × List Nat)) (p d : Nat) (x : Nat) :
    x ∈ (lookupGroup (addDup gs p d) p).getD [] ↔
      (x ∈ (lookupGroup gs p).getD [] ∨ x = d) := by
  induction gs with
  | nil =>
    simp [addDup, lookupGroup]
  | cons qg rest ih =>
    rcases qg with ⟨q, g⟩
    by_cases hq : q = p
    · by_cases hd : d ∈ g
      · simp only [addDup, if_pos hq, if_pos hd, lookupGroup, Option.getD_some]
        constructor
        · exact Or.inl
        · intro hx
          rcases hx with hx | hx
          · exact hx
          · rw [hx]
            exact hd
      · simp only [addDup, if_pos hq, if_neg hd, lookupGroup, Option.getD_some,
          List.mem_cons]
        tauto
    · simp only [addDup, if_neg hq, lookupGroup]
      exact ih

theorem lookupGroup_addDup_ne (gs : List (Nat × List Nat)) (p q d : Nat)
    (h : p ≠ q) :
    lookupGroup (addDup gs q d) p = lookupGroup gs p := by
  induction gs with
  | nil =>
    simp only [addDup, lookupGroup]
    rw [if_neg (fun hc => h hc.symm)]
  | cons rg rest ih =>
    rcases rg with ⟨r, g⟩
    by_cases hr : r = q
    · have hrp : r ≠ p := by
        intro hc
        rw [← hc, hr] at h
        exact h rfl
      simp only [addDup, if_pos hr, lookupGroup]
      rw [if_neg hrp, if_neg hrp]
    · simp only [addDup, if_neg hr, lookupGroup]
      by_cases hp : r = p
      · rw [if_pos hp, if_pos hp]
      · rw [if_neg hp, if_neg hp]
        exact ih

theorem registerAll_mem (ds : List Nat) (t : LabelTable) (p x : Nat) :
    x ∈ (registerAll t p ds).GetDuplicateId p ↔
      (x ∈ t.GetDuplicateId p ∨ x ∈ ds) := by
  induction ds generalizing t with
  | nil => simp [registerAll]
  | cons d rest ih =>
    show x ∈ (registerAll (t.SetDuplicateId p d) p rest).GetDuplicateId p ↔ _
    rw [ih]
    simp only [LabelTable.GetDuplicateId, LabelTable.SetDuplicateId,
      lookupGroup_addDup_self, List.mem_cons]
    tauto

/-- Inserting at an id always makes that id readable afterwards, whatever
the prior capacity. -/
theorem insert_getLabelById_self (t : LabelTable) (id l : Nat) :
    (t.Insert id l).GetLabelById id = .ok l := by
  simp only [LabelTable.Insert, LabelTable.GetLabelById]
  rw [if_pos (Nat.lt_of_lt_of_le (Nat.lt_succ_self id) (Nat.le_max_right _ _))]
  rw [storeAt_slotAt_self]

/-- Reverse lookup with a known resolution: the result only further
depends on the tombstone check. -/
theorem getIdByLabel_eq (t : LabelTable) (lab id : Nat) (allow : Bool)
    (h : t.resolve lab = some id) :
    t.GetIdByLabel lab allow =
      if allow = false ∧ id ∈ t.removed then .err .NotFound else .ok id := by
  simp only [LabelTable.GetIdByLabel, h]

/-- A tombstoned resolution is invisible to the default lookup. -/
theorem getIdByLabel_removed (t : LabelTable) (lab id : Nat)
    (h : t.resolve lab = some id) (hm : id ∈ t.removed) :
    t.GetIdByLabel lab false = .err .NotFound := by
  rw [getIdByLabel_eq t lab id false h, if_pos ⟨rfl, hm⟩]

/-- A non-tombstoned resolution is returned by the default lookup. -/
theorem getIdByLabel_live (t : LabelTable) (lab id : Nat)
    (h : t.resolve lab = some id) (hm : id ∉ t.removed) :
    t.GetIdByLabel lab false = .ok id := by
  rw [getIdByLabel_eq t lab id false h, if_neg (by simp [hm])]

/-- With allow_removed, a resolution is returned regardless of
tombstones. -/
theorem getIdByLabel_allow (t : LabelTable) (lab id : Nat)
    (h : t.resolve lab = some id) :
    t.GetIdByLabel lab true = .ok id := by
  rw [getIdByLabel_eq t lab id true h, if_neg (by simp)]

/-- Claim C2: for every label that was inserted (it resolves, ignoring
tombstones, to some id), MarkRemove succeeds, and afterwards CheckLabel is
false, GetIdByLabel with the default allow_removed = false fails with
NotFound, and GetIdByLabel with allow_removed = true still returns the id
the label originally resolved to. -/
theorem tombstone_visibility (t : LabelTable) (lab id : Nat)
    (h : t.GetIdByLabel lab true = .ok id) :
    ∃ t1, t.MarkRemove lab = .ok t1 ∧
      t1.CheckLabel lab = false ∧
      t1.GetIdByLabel lab false = .err .NotFound ∧
      t1.GetIdByLabel lab true = .ok id := by
  have hres : t.resolve lab = some id := by
    cases hv : t.resolve lab with
    | none => simp [LabelTable.GetIdByLabel, hv] at h
    | some j =>
      simp [LabelTable.GetIdByLabel, hv] at h
      rw [h]
  have hmem : id ∈ (if id ∈ t.removed then t.removed else id :: t.removed) := by
    by_cases hm : id ∈ t.removed
    · rwa [if_pos hm]
    · rw [if_neg hm]
      exact List.mem_cons_self _ _
  refine ⟨{ t with removed := if id ∈ t.removed then t.removed else id :: t.removed },
    ?_, ?_, ?_, ?_⟩
  · simp only [LabelTable.MarkRemove, h]
  · have h2 : LabelTable.GetIdByLabel
        { t with removed := if id ∈ t.removed then t.removed else id :: t.removed }
        lab false = .err .NotFound :=
      getIdByLabel_removed _ lab id hres hmem
    simp only [LabelTable.CheckLabel, h2]
  · exact getIdByLabel_removed _ lab id hres hmem
  · exact getIdByLabel_allow _ lab id hres

/-- Claim C2 witness: on the table of the basic-operations test, label 100
resolves to id 0, and all three tombstone-visibility consequences hold
after MarkRemove(100). -/
theorem tombstone_visibility_witness :
    (run true false [.insert 0 100, .insert 1 200]).GetIdByLabel 100 true = .ok 0 ∧
      (∃ t1, (run true false [.insert 0 100, .insert 1 200]).MarkRemove 100 = .ok t1 ∧
        t1.CheckLabel 100 = false ∧
        t1.GetIdByLabel 100 false = .err .NotFound ∧
        t1.GetIdByLabel 100 true = .ok 0) :=
  ⟨by decide, tombstone_visibility _ 100 0 (by decide)⟩

/-- Claim C8: for every table and every new capacity at least the occupied
count, Resize preserves every label, every tombstone, every duplicate
group and the total count, and internal ids up to new_capacity - 1 are
insertable afterwards. -/
theorem resize_preserves_state (t : LabelTable) (n : Nat)
    (h : t.GetTotalCount ≤ n) :
    (∀ id, (t.Resize n).GetLabelById id = t.GetLabelById id) ∧
      (∀ id, (t.Resize n).IsRemoved id = t.IsRemoved id) ∧
      (∀ id, (t.Resize n).GetDuplicateId id = t.GetDuplicateId id) ∧
      (t.Resize n).GetTotalCount = t.GetTotalCount ∧
      n ≤ (t.Resize n).labels.length ∧
      (∀ id l, id < n → ((t.Resize n).Insert id l).GetLabelById id = .ok l) := by
  refine ⟨?_, fun id => rfl, fun id => rfl, rfl, ?_,
    fun id l _ => insert_getLabelById_self _ id l⟩
  · intro id
    simp only [LabelTable.GetLabelById, LabelTable.Resize, growTo_slotAt]
  · rw [show (t.Resize n).labels = growTo t.labels n from rfl, growTo_length]
    exact Nat.le_max_left _ _

/-- Claim C8 witness: on the table of the Resize test (two dense inserts),
growing the capacity to 10 leaves the total count unchanged. -/
theorem resize_preserves_state_witness :
    (run true true [.insert 0 100, .insert 1 200]).GetTotalCount ≤ 10 ∧
      ((run true true [.insert 0 100, .insert 1 200]).Resize 10).GetTotalCount
        = (run true true [.insert 0 100, .insert 1 200]).GetTotalCount :=
  ⟨by decide, (resize_preserves_state _ 10 (by decide)).2.2.2.1⟩

/-- Claim C9: GetDuplicateId returns the empty set (never an error) for an
id with no registered duplicates — in particular on a fresh table, and
Insert and Resize register nothing; registering a list of duplicates under
one primary yields a set holding exactly the previously registered members
and those ids; and registering under a different primary leaves a group
untouched, so groups registered under distinct primaries with disjoint
members stay disjoint. -/
theorem duplicate_groups_spec :
    (∀ rm cd id, (LabelTable.new rm cd).GetDuplicateId id = []) ∧
      (∀ t : LabelTable, ∀ p id l,
        ((t.Insert id l).GetDuplicateId p = t.GetDuplicateId p) ∧
        ((t.Resize id).GetDuplicateId p = t.GetDuplicateId p)) ∧
      (∀ t : LabelTable, ∀ p ds x,
        x ∈ (registerAll t p ds).GetDuplicateId p ↔
          (x ∈ t.GetDuplicateId p ∨ x ∈ ds)) ∧
      (∀ t : LabelTable, ∀ p q d, p ≠ q →
        (t.SetDuplicateId q d).GetDuplicateId p = t.GetDuplicateId p) := by
  refine ⟨fun rm cd id => rfl, fun t p id l => ⟨rfl, rfl⟩,
    fun t p ds x => registerAll_mem ds t p x, fun t p q d h => ?_⟩
  simp only [LabelTable.GetDuplicateId, LabelTable.SetDuplicateId,
    lookupGroup_addDup_ne _ p q d h]

/-- Claim C9 witness: registering duplicate 4 under primary 3 leaves the
group of primary 0 untouched on a concrete table. -/
theorem duplicate_groups_spec_witness :
    (0 : Nat) ≠ 3 ∧
      ((run true true [.insert 0 100, .setDuplicateId 0 1]).SetDuplicateId 3 4).GetDuplicateId 0
        = (run true true [.insert 0 100, .setDuplicateId 0 1]).GetDuplicateId 0 :=
  ⟨by decide, duplicate_groups_spec.2.2.2 _ 0 3 4 (by decide)⟩

/-- A successful reverse lookup pins down the resolution. -/
theorem getIdByLabel_ok_resolve (t : LabelTable) (lab i : Nat) (allow : Bool)
    (h : t.GetIdByLabel lab allow = .ok i) : t.resolve lab = some i := by
  cases hv : t.resolve lab with
  | none => simp [LabelTable.GetIdByLabel, hv] at h
  | some j =>
    simp only [LabelTable.GetIdByLabel, hv] at h
    by_cases hc : allow = false ∧ j ∈ t.removed
    · rw [if_pos hc] at h
      simp at h
    · rw [if_neg hc] at h
      injection h with h2
      rw [h2]

/-- A default (allow_removed = false) lookup never returns a tombstoned
id. -/
theorem getIdByLabel_ok_not_removed (t : LabelTable) (lab i : Nat)
    (h : t.GetIdByLabel lab false = .ok i) : i ∉ t.removed := by
  have hres := getIdByLabel_ok_resolve t lab i false h
  rw [getIdByLabel_eq t lab i false hres] at h
  by_cases hm : i ∈ t.removed
  · rw [if_pos ⟨rfl, hm⟩] at h
    simp at h
  · exact hm

/-- Claim C3 (amended): for every previously-inserted, non-removed label
that is stored at exactly one internal id and whose reverse-index entry is
not stale (no entry of the reverse index disagrees with the identity
store), SetImmutable does not change the result of GetIdByLabel — only the
lookup strategy. -/
theorem setImmutable_mode_equiv (t : LabelTable) (lab i : Nat)
    (hm : t.use_reverse_map = true)
    (hc : ∀ p ∈ t.reverse_index, slotAt t.labels p.2 = some p.1)
    (hl : lookupRev t.reverse_index lab = some i)
    (hu : ∀ j, j < t.labels.length → slotAt t.labels j = some lab → j = i)
    (hr : i ∉ t.removed) :
    t.SetImmutable.GetIdByLabel lab false = t.GetIdByLabel lab false := by
  have hslot : slotAt t.labels i = some lab := hc (lab, i) (lookupRev_mem _ _ _ hl)
  have hres : t.resolve lab = some i := by
    unfold LabelTable.resolve
    rw [if_pos hm]
    exact hl
  have hscan : firstScan t.labels lab = some i := by
    refine (firstScan_some_iff _ _ _).mpr ⟨hslot, ?_⟩
    intro j hj hjs
    have hji := hu j (slotAt_some_lt _ _ _ hjs) hjs
    omega
  have hres2 : t.SetImmutable.resolve lab = some i := by
    unfold LabelTable.resolve
    rw [if_neg (by simp [LabelTable.SetImmutable])]
    exact hscan
  rw [getIdByLabel_live t.SetImmutable lab i hres2 hr,
    getIdByLabel_live t lab i hres hr]

/-- Claim C3 counterexample: insert label 100 at id 0 and again at id 1
(reverse map active, nothing removed); before SetImmutable the reverse
index resolves 100 to the most recent id 1, after SetImmutable the linear
scan resolves it to the first id 0 — SetImmutable changes the result of
GetIdByLabel for the previously-inserted, non-removed label 100. -/
theorem setImmutable_mode_equiv_counterexample :
    tDup.use_reverse_map = true ∧
      tDup.removed = [] ∧
      tDup.GetIdByLabel 100 false = .ok 1 ∧
      tDup.SetImmutable.GetIdByLabel 100 false = .ok 0 := by
  decide

/-- Claim C3 witness: on the basic three-label table, GetIdByLabel(100) is
unchanged by SetImmutable. -/
theorem setImmutable_mode_equiv_witness :
    tBasic.use_reverse_map = true ∧
      tBasic.SetImmutable.GetIdByLabel 100 false = tBasic.GetIdByLabel 100 false :=
  ⟨by decide,
    setImmutable_mode_equiv tBasic 100 0 (by decide) (by decide) (by decide)
      (by decide) (by decide)⟩

/-- Claim C6 (amended): with reverse-map mode active and no stale
reverse-index entries, for every inserted (id, label) pair where the label
is stored at exactly one internal id, the label has a reverse-index entry,
and id is not tombstoned, GetIdByLabel applied to the label returned by
GetLabelById(id) returns id. -/
theorem bidirectional_consistency (t : LabelTable) (id lab : Nat)
    (hm : t.use_reverse_map = true)
    (hc : ∀ p ∈ t.reverse_index, slotAt t.labels p.2 = some p.1)
    (hg : t.GetLabelById id = .ok lab)
    (hu : ∀ j, j < t.labels.length → slotAt t.labels j = some lab → j = id)
    (hne : lookupRev t.reverse_index lab ≠ none)
    (hr : id ∉ t.removed) :
    t.GetIdByLabel lab false = .ok id := by
  cases hlv : lookupRev t.reverse_index lab with
  | none => exact absurd hlv hne
  | some k =>
    have hk : slotAt t.labels k = some lab := hc (lab, k) (lookupRev_mem _ _ _ hlv)
    have hki : k = id := hu k (slotAt_some_lt _ _ _ hk) hk
    have hres : t.resolve lab = some id := by
      unfold LabelTable.resolve
      rw [if_pos hm, hlv, hki]
    exact getIdByLabel_live t lab id hres hr

/-- Claim C6 counterexample: insert label 100 at id 0 and again at id 1
(reverse map active, nothing tombstoned); then GetLabelById(0) = 100 but
GetIdByLabel(100) = 1 ≠ 0, so GetIdByLabel(GetLabelById(id)) = id fails
for the inserted pair (0, 100). -/
theorem bidirectional_consistency_counterexample :
    tDup.use_reverse_map = true ∧
      tDup.removed = [] ∧
      tDup.GetLabelById 0 = .ok 100 ∧
      tDup.GetIdByLabel 100 false = .ok 1 := by
  decide

/-- Claim C6 witness: on the basic three-label table, the pair (0, 100)
round-trips. -/
theorem bidirectional_consistency_witness :
    tBasic.GetLabelById 0 = .ok 100 ∧ tBasic.GetIdByLabel 100 false = .ok 0 :=
  ⟨by decide,
    bidirectional_consistency tBasic 0 100 (by decide) (by decide) (by decide)
      (by decide) (by decide) (by decide)⟩

/-- Claim C7: when reverse-map mode is inactive, GetIdByLabel performs a
linear scan of the identity store: a lookup ignoring tombstones succeeds
exactly on the first matching internal id in increasing id order; a
default lookup that succeeds also returns that first matching,
non-tombstoned id; and the lookup fails with NotFound when no stored label
equals the argument. -/
theorem linear_scan_semantics (t : LabelTable) (lab : Nat)
    (hm : t.use_reverse_map = false) :
    (∀ i, t.GetIdByLabel lab true = .ok i ↔
        (slotAt t.labels i = some lab ∧ ∀ j, j < i → slotAt t.labels j ≠ some lab)) ∧
      (∀ i, t.GetIdByLabel lab false = .ok i →
        (slotAt t.labels i = some lab ∧ (∀ j, j < i → slotAt t.labels j ≠ some lab) ∧
          i ∉ t.removed)) ∧
      ((∀ j, j < t.labels.length → slotAt t.labels j ≠ some lab) →
        t.GetIdByLabel lab false = .err .NotFound) := by
  have hres : t.resolve lab = firstScan t.labels lab := by
    unfold LabelTable.resolve
    rw [hm, if_neg (by simp)]
  refine ⟨?_, ?_, ?_⟩
  · intro i
    constructor
    · intro h
      have h2 := getIdByLabel_ok_resolve t lab i true h
      rw [hres] at h2
      exact (firstScan_some_iff _ _ _).mp h2
    · intro hp
      have h2 : t.resolve lab = some i := by
        rw [hres]
        exact (firstScan_some_iff _ _ _).mpr hp
      exact getIdByLabel_allow t lab i h2
  · intro i h
    have h2 := getIdByLabel_ok_resolve t lab i false h
    rw [hres] at h2
    rcases (firstScan_some_iff _ _ _).mp h2 with ⟨ha, hb⟩
    exact ⟨ha, hb, getIdByLabel_ok_not_removed t lab i h⟩
  · intro habs
    have h2 : t.resolve lab = none := by
      rw [hres]
      exact firstScan_none_of_absent _ _ habs
    simp [LabelTable.GetIdByLabel, h2]

/-- Claim C7 witness: on the reverse-map-disabled table of the test, an
absent label fails with NotFound. -/
theorem linear_scan_semantics_witness :
    tNoRev.use_reverse_map = false ∧
      tNoRev.GetIdByLabel 999 false = .err .NotFound :=
  ⟨by decide, (linear_scan_semantics tNoRev 999 (by decide)).2.2 (by decide)⟩

/-- Claim C10: on a freshly constructed LabelTable on which no Insert has
been performed, GetTotalCount returns 0 and GetIdByLabel fails with
NotFound for every label, under either construction flag. -/
theorem fresh_table_empty (rm cd : Bool) (lab : Nat) :
    (LabelTable.new rm cd).GetTotalCount = 0 ∧
      (LabelTable.new rm cd).GetIdByLabel lab false = .err .NotFound := by
  refine ⟨rfl, ?_⟩
  cases rm <;> rfl

/-- Claim C5 (amended): Insert(id, label) stores label at position id in
the identity store, growing the store on demand to length id + 1 when id
is at or beyond the current capacity; no preceding Resize call is
required. -/
theorem insert_grows_on_demand (t : LabelTable) (id l : Nat) :
    (t.Insert id l).GetLabelById id = .ok l ∧
      (t.Insert id l).labels.length = max (id + 1) t.labels.length :=
  ⟨insert_getLabelById_self t id l, storeAt_length t.labels id l⟩

/-- Claim C5 counterexample: on a fresh table of capacity 0, Insert at
internal id 1000 takes effect with no preceding Resize call and grows the
identity store by itself — contradicting the claim that accommodating an
id at or beyond capacity requires the caller to call Resize first and that
Insert performs no growing-on-demand. -/
theorem insert_without_resize_counterexample :
    (LabelTable.new true false).labels.length = 0 ∧
      ((LabelTable.new true false).Insert 1000 5000).GetLabelById 1000 = .ok 5000 ∧
      ((LabelTable.new true false).Insert 1000 5000).labels.length = 1001 := by
  refine ⟨rfl, insert_getLabelById_self _ 1000 5000, ?_⟩
  rw [show ((LabelTable.new true false).Insert 1000 5000).labels
        = storeAt [] 1000 5000 from rfl,
      storeAt_length]
  rfl

/-- Claim C4: GetLabelById(id) fails with NotFound iff id is outside
[0, total_count) or was never inserted (its slot is empty); in particular,
after inserting only at internal id 1000 (sparse id space), GetLabelById
1000 returns the stored label 5000 and GetLabelById 1 fails with
NotFound. -/
theorem getLabelById_domain (t : LabelTable) (id : Nat) :
    (t.GetLabelById id = .err .NotFound ↔
        (t.total_count ≤ id ∨ slotAt t.labels id = none)) ∧
      ((LabelTable.new true false).Insert 1000 5000).GetLabelById 1000 = .ok 5000 ∧
      ((LabelTable.new true false).Insert 1000 5000).GetLabelById 1 = .err .NotFound := by
  refine ⟨?_, insert_getLabelById_self _ 1000 5000, by decide⟩
  simp only [LabelTable.GetLabelById]
  by_cases h : id < t.total_count
  · rw [if_pos h]
    cases hs : slotAt t.labels id with
    | none =>
      constructor
      · intro _
        exact Or.inr rfl
      · intro _
        rfl
    | some l =>
      constructor
      · intro hc
        simp at hc
      · intro hc
        rcases hc with hc | hc
        · omega
        · simp at hc
  · rw [if_neg h]
    constructor
    · intro _
      exact Or.inl (by omega)
    · intro _
      rfl

/-- Claim C1 (amended): for every sequence of Insert, MarkRemove,
SetDuplicateId and Resize operations, Serialize followed by Deserialize
into a freshly constructed table with matching flags yields a table on
which GetLabelById, GetTotalCount, IsRemoved and GetDuplicateId return the
same results as on the original table, for every id.  (CheckLabel — and
GetIdByLabel — need not be reproduced when some label was inserted at more
than one id: the rebuilt reverse index may designate a different
representative id for it.) -/
theorem roundtrip_preserves_core (rm cd : Bool) (ops : List Op) (id : Nat) :
    ∃ t1, (LabelTable.new rm cd).Deserialize (run rm cd ops).Serialize = .ok t1 ∧
      t1.GetLabelById id = (run rm cd ops).GetLabelById id ∧
      t1.GetTotalCount = (run rm cd ops).GetTotalCount ∧
      t1.IsRemoved id = (run rm cd ops).IsRemoved id ∧
      t1.GetDuplicateId id = (run rm cd ops).GetDuplicateId id :=
  ⟨reconstruct rm cd (run rm cd ops),
    deserialize_serialize rm cd (run rm cd ops), rfl, rfl, rfl, rfl⟩

/-- Claim C1 counterexample: after Insert(0,7), Insert(1,7), MarkRemove(7)
(all flags matching, both tables constructed alike), the original table
answers CheckLabel(7) = false — its reverse index designates the most
recently inserted id 1, which is the id MarkRemove tombstoned — but the
deserialized copy rebuilds its reverse index from the identity store,
designates id 0, and answers CheckLabel(7) = true; the round trip does not
reproduce CheckLabel for every sequence of operations. -/
theorem roundtrip_checkLabel_counterexample :
    (run true true [.insert 0 7, .insert 1 7, .markRemove 7]).CheckLabel 7 = false ∧
      (match (LabelTable.new true true).Deserialize
          (run true true [.insert 0 7, .insert 1 7, .markRemove 7]).Serialize with
        | .ok t1 => t1.CheckLabel 7
        | .err _ => false) = true := by
  decide

end VsagSpec
